import Mathlib

/-!
Shallow embedding of the homies_gaming_backend media-slot server core
(src/state.rs, src/websocket.rs, src/handlers/upload.rs, src/utils.rs,
src/main.rs), together with theorems settling the specification claims.

Machine integers are modelled as `Nat` (the only arithmetic involved is
comparison, truncated subtraction and clamping, all far below 2^64 except
where the `u64` parse bound is modelled explicitly).  `SystemTime` is a
`Nat` timestamp; `SystemTime::now()` becomes an explicit `now` parameter.
`HashMap<String, HashSet<IpAddr>>` is modelled as an association list from
filename to the list of viewer addresses (insertion order; set-ness is
maintained by the membership test that guards insertion, exactly as
`HashSet::insert` does).
-/

namespace HomiesBackend

/-- Viewer identifier: `IpAddr` rendered as a string. -/
abbrev IpAddr := String

/-- `MediaType` from src/state.rs. -/
inductive MediaType where
  | Image
  | Video
deriving DecidableEq, Repr

/-- `MediaInfo` from src/state.rs. -/
structure MediaInfo where
  filename : String
  media_type : MediaType
  upload_time : Nat
  marked_for_deletion : Bool
  duration_secs : Nat
  caption : String
deriving DecidableEq, Repr

/-- `SoundInfo` from src/state.rs. -/
structure SoundInfo where
  filename : String
  upload_time : Nat
  marked_for_deletion : Bool
deriving DecidableEq, Repr

/-- The viewer ledger: `viewed_by: HashMap<String, HashSet<IpAddr>>`,
modelled as an association list from filename to the viewers that have
consumed it. -/
abbrev Ledger := List (String × List IpAddr)

/-- `MediaViewState` from src/state.rs. -/
structure MediaViewState where
  last_media : Option MediaInfo
  last_sound : Option SoundInfo
  viewed_by : Ledger
deriving DecidableEq, Repr

/-- `MediaViewState::new`. -/
def MediaViewState.new : MediaViewState :=
  { last_media := none, last_sound := none, viewed_by := [] }

/-- `self.viewed_by.get(filename)`: first-match lookup in the ledger. -/
def ledgerLookup : Ledger → String → Option (List IpAddr)
  | [], _ => none
  | (g, vs) :: rest, f => if g = f then some vs else ledgerLookup rest f

/-- `self.viewed_by.entry(filename).or_default()` followed by
`viewed_set.insert(ip)`: inserts `ip` into the set for `filename`
(creating the entry when absent) and reports whether the insertion was
new, exactly as `HashSet::insert` does. -/
def ledgerInsert : Ledger → String → IpAddr → Ledger × Bool
  | [], f, ip => ([(f, [ip])], true)
  | (g, vs) :: rest, f, ip =>
    if g = f then
      if ip ∈ vs then ((g, vs) :: rest, false)
      else ((g, ip :: vs) :: rest, true)
    else
      let (rest', b) := ledgerInsert rest f ip
      ((g, vs) :: rest', b)

/-- `MediaViewState::set_last_media`: unconditional slot replace. -/
def MediaViewState.set_last_media (s : MediaViewState) (media : MediaInfo) :
    MediaViewState :=
  { s with last_media := some media }

/-- `MediaViewState::set_last_sound`: unconditional slot replace. -/
def MediaViewState.set_last_sound (s : MediaViewState) (sound : SoundInfo) :
    MediaViewState :=
  { s with last_sound := some sound }

/-- `MediaViewState::mark_viewed`: inserts `ip` into the ledger entry for
`filename` and returns the updated state together with the `bool` the
Rust function returns (true iff the pair was newly inserted). -/
def MediaViewState.mark_viewed (s : MediaViewState) (filename : String)
    (ip : IpAddr) : MediaViewState × Bool :=
  let (vb, fresh) := ledgerInsert s.viewed_by filename ip
  ({ s with viewed_by := vb }, fresh)

/-- `MediaViewState::get_last_media`. -/
def MediaViewState.get_last_media (s : MediaViewState) : Option MediaInfo :=
  s.last_media

/-- `MediaViewState::has_been_viewed`. -/
def MediaViewState.has_been_viewed (s : MediaViewState) (filename : String)
    (ip : IpAddr) : Bool :=
  match ledgerLookup s.viewed_by filename with
  | some vs => decide (ip ∈ vs)
  | none => false

/-- `MediaViewState::get_last_media_for_ip`: returns the slot contents only
if not yet viewed by `ip` and not marked for deletion. -/
def MediaViewState.get_last_media_for_ip (s : MediaViewState) (ip : IpAddr) :
    Option MediaInfo :=
  match s.last_media with
  | some media =>
    if !s.has_been_viewed media.filename ip && !media.marked_for_deletion then
      some media
    else
      none
  | none => none

/-- `MediaViewState::mark_for_deletion`: sets the quarantine flag only when
`filename` matches the current media slot occupant. -/
def MediaViewState.mark_for_deletion (s : MediaViewState) (filename : String) :
    MediaViewState :=
  match s.last_media with
  | some media =>
    if media.filename = filename then
      { s with last_media := some { media with marked_for_deletion := true } }
    else s
  | none => s

/-- `SystemTime::duration_since`: `Ok(elapsed)` exactly when the argument is
not later than `now`. -/
def duration_since (now t : Nat) : Option Nat :=
  if t ≤ now then some (now - t) else none

/-- `MediaViewState::get_files_to_delete`: the stale-candidate scan.  The
Rust code reads `SystemTime::now()` internally; here `now` is an explicit
parameter. -/
def MediaViewState.get_files_to_delete (s : MediaViewState) (now : Nat)
    (threshold : Nat) : List String :=
  match s.last_media with
  | some media =>
    match duration_since now media.upload_time with
    | some elapsed =>
      if elapsed > threshold && !media.marked_for_deletion then
        [media.filename]
      else []
    | none => []
  | none => []

/-- `MediaViewState::file_exists`. -/
def MediaViewState.file_exists (s : MediaViewState) (filename : String) :
    Bool :=
  match s.last_media with
  | some media => filename = media.filename && !media.marked_for_deletion
  | none => false

/-- `MediaViewState::get_last_sound`. -/
def MediaViewState.get_last_sound (s : MediaViewState) : Option SoundInfo :=
  s.last_sound

/-- `MediaViewState::remove_file_from_state`: clears the media slot and the
sound slot when they match `filename`, then removes the ledger entry for
`filename` (the `viewed_by.remove` call runs unconditionally). -/
def MediaViewState.remove_file_from_state (s : MediaViewState)
    (filename : String) : MediaViewState :=
  let lm := match s.last_media with
    | some media => if media.filename = filename then none else some media
    | none => none
  let ls := match s.last_sound with
    | some sound => if sound.filename = filename then none else some sound
    | none => none
  { last_media := lm, last_sound := ls,
    viewed_by := s.viewed_by.filter (fun e => e.1 ≠ filename) }

/-! ## Websocket broadcast messages (src/websocket.rs)

Each `broadcast_*` function constructs one JSON record
`json!({"event": ..., "url": ...})` and sends it on the broadcast channel;
the record is modelled as a `WsEvent` value. -/

/-- The discriminated event record `\x7bevent, url\x7d` that the hub
publishes. -/
structure WsEvent where
  event : String
  url : String
deriving DecidableEq, Repr

/-- One hexadecimal digit, uppercase, as emitted by the percent-encoding
crate. -/
def hexDigitChar (n : Nat) : Char :=
  if n < 10 then Char.ofNat (48 + n) else Char.ofNat (55 + n)

/-- `%XX` encoding of one byte. -/
def percentEncodeByte (b : Nat) : List Char :=
  ['%', hexDigitChar (b / 16), hexDigitChar (b % 16)]

/-- The `FRAGMENT` ascii set of src/websocket.rs:
`CONTROLS.add(' ').add('"').add('<').add('>').add('`')` where `CONTROLS`
is the C0 range together with DEL. -/
def fragmentSet (b : Nat) : Bool :=
  b < 0x20 || b == 0x7f || b == 0x20 || b == 0x22 || b == 0x3c ||
    b == 0x3e || b == 0x60

/-- UTF-8 bytes of one scalar value. -/
def utf8Bytes (c : Char) : List Nat :=
  let n := c.toNat
  if n < 0x80 then [n]
  else if n < 0x800 then [0xC0 + n / 64, 0x80 + n % 64]
  else if n < 0x10000 then
    [0xE0 + n / 4096, 0x80 + (n / 64) % 64, 0x80 + n % 64]
  else
    [0xF0 + n / 262144, 0x80 + (n / 4096) % 64, 0x80 + (n / 64) % 64,
      0x80 + n % 64]

/-- `utf8_percent_encode(uri, FRAGMENT)`: every non-ASCII byte, and every
ASCII byte in the set, is percent-encoded. -/
def utf8_percent_encode_fragment (s : String) : String :=
  String.mk (((s.data.map utf8Bytes).flatten.map fun b =>
    if 0x80 ≤ b || fragmentSet b then percentEncodeByte b
    else [Char.ofNat b]).flatten)

/-- `broadcast_new_media`: the general new-media notification. -/
def broadcast_new_media_msg : WsEvent :=
  { event := "browser_backend", url := "/?ws=true" }

/-- `broadcast_new_song`. -/
def broadcast_new_song_msg (uri : String) : WsEvent :=
  { event := "song",
    url := "/sounds/" ++ utf8_percent_encode_fragment uri ++ "?ws=true" }

/-- `broadcast_new_browser_raw`. -/
def broadcast_new_browser_raw_msg (url : String) : WsEvent :=
  { event := "browser_raw", url := url }

/-- `broadcast_video_event`. -/
def broadcast_video_event_msg (filename : String) : WsEvent :=
  { event := "video", url := "/uploads/" ++ filename }

/-! ## Upload flow (src/handlers/upload.rs) -/

/-- One multipart form field as seen by `parse_form_data`: the `image`
field carries a filename and file bytes, the `duration` and `caption`
fields carry a string body, anything else is ignored. -/
inductive FormField where
  | image (filename : String) (data : List Nat)
  | duration (raw : String)
  | caption (raw : String)
  | other
deriving DecidableEq, Repr

/-- `FormDataParsed` from src/handlers/upload.rs. -/
structure FormDataParsed where
  filename : String
  file_data : List Nat
  duration_secs : Nat
  caption : String
deriving DecidableEq, Repr

/-- `u64::clamp(lo, hi)`. -/
def rustClamp (v lo hi : Nat) : Nat :=
  if v < lo then lo else if v > hi then hi else v

/-- `str::trim` on a character list: strip whitespace from both ends. -/
def listTrim (cs : List Char) : List Char :=
  ((cs.dropWhile Char.isWhitespace).reverse.dropWhile
    Char.isWhitespace).reverse

/-- `s.trim().parse::<u64>()`: optional leading `+`, then one or more
ASCII digits, value below `2^64`. -/
def rustParseU64 (s : String) : Option Nat :=
  let body := match listTrim s.data with
    | '+' :: rest => rest
    | cs => cs
  if body ≠ [] ∧ body.all Char.isDigit then
    let v := body.foldl (fun a c => a * 10 + (c.toNat - 48)) 0
    if v < 2 ^ 64 then some v else none
  else none

/-- One step of `parse_form_data`'s field loop. -/
def parseFormStep (acc : FormDataParsed) : FormField → FormDataParsed
  | .image fn data =>
    { acc with filename := fn, file_data := acc.file_data ++ data }
  | .duration raw =>
    match rustParseU64 raw with
    | some v => { acc with duration_secs := rustClamp v 1 60 }
    | none => acc
  | .caption raw => { acc with caption := String.mk (listTrim raw.data) }
  | .other => acc

/-- `parse_form_data`: folds the multipart fields over the defaults
(empty filename, no data, duration 5, empty caption). -/
def parse_form_data (fields : List FormField) : FormDataParsed :=
  fields.foldl parseFormStep
    { filename := "", file_data := [], duration_secs := 5, caption := "" }

/-- `filename.split('.').next_back()`: the characters after the last dot,
or the whole string when it has no dot. -/
def afterLastDot : List Char → List Char
  | [] => []
  | c :: rest =>
    if '.' ∈ rest then afterLastDot rest
    else if c = '.' then rest
    else c :: rest

/-- `detect_media_type`: classify by lowercased final `.`-separated
extension. -/
def detect_media_type (filename : String) : MediaType :=
  let ext := (afterLastDot filename.data).map Char.toLower
  if ext ∈ ["mp4".data, "mov".data, "avi".data, "webm".data, "ogg".data,
      "mkv".data, "wmv".data, "flv".data, "m4v".data]
  then MediaType.Video else MediaType.Image

/-- The `final_duration` computation of `upload_image`: videos get the
sentinel 999999, images keep the parsed form duration. -/
def upload_final_duration (media_type : MediaType) (form_duration : Nat) :
    Nat :=
  match media_type with
  | MediaType.Video => 999999
  | MediaType.Image => form_duration

/-- `create_media_info` (here `now` stands for the
`SystemTime::now()` read). -/
def create_media_info (filename : String) (media_type : MediaType)
    (duration_secs : Nat) (caption : String) (now : Nat) : MediaInfo :=
  { filename := filename, media_type := media_type, upload_time := now,
    marked_for_deletion := false, duration_secs := duration_secs,
    caption := caption }

/-- `update_state_and_broadcast`: stores the media into the slot and
broadcasts the general new-media event only when the media type is not
Video.  Returns the new state together with the events published. -/
def update_state_and_broadcast (s : MediaViewState) (media_info : MediaInfo) :
    MediaViewState × List WsEvent :=
  (s.set_last_media media_info,
    if media_info.media_type ≠ MediaType.Video then [broadcast_new_media_msg]
    else [])

/-- The publish side of `upload_image` after the media info is built:
`update_state_and_broadcast`, then, for videos only, the dedicated video
event. -/
def upload_image_broadcasts (s : MediaViewState) (media_info : MediaInfo) :
    MediaViewState × List WsEvent :=
  let (s', evs) := update_state_and_broadcast s media_info
  (s',
    evs ++
      if media_info.media_type = MediaType.Video then
        [broadcast_video_event_msg media_info.filename]
      else [])

/-! ## Path validation (src/utils.rs)

`std::path` values are modelled at the component level: a path is a list
of components, `Path::components()` having already split it. -/

/-- One `std::path::Component`. -/
inductive PathComponent where
  | prefixComp
  | rootDir
  | curDir
  | parentDir
  | normal (s : String)
deriving DecidableEq, Repr

/-- `Path::has_root` at component level (a Windows prefix also makes the
path non-relative for `join`). -/
def pathAbsolute : List PathComponent → Bool
  | PathComponent.rootDir :: _ => true
  | PathComponent.prefixComp :: _ => true
  | _ => false

/-- `Path::join`: an absolute argument replaces the receiver, otherwise
the components concatenate. -/
def pathJoin (p q : List PathComponent) : List PathComponent :=
  if pathAbsolute q then q else p ++ q

/-- One iteration of `validate_file_path`'s component loop: the resolved
path (only `Normal` components, kept as strings) together with the
virtual depth. -/
def validateStep : List String × Nat → PathComponent → List String × Nat
  | (acc, d), PathComponent.prefixComp => (acc, d)
  | (acc, d), PathComponent.rootDir => (acc, d)
  | (acc, d), PathComponent.curDir => (acc, d)
  | (acc, d), PathComponent.parentDir =>
    if d > 0 then (acc.dropLast, d - 1) else (acc, d)
  | (acc, d), PathComponent.normal s => (acc ++ [s], d + 1)

/-- `validate_file_path(base_dir, user_path)` at component level: an empty
user path returns the base; otherwise the loop resolves the components,
the result is joined onto the base, and the `starts_with` guard is
checked. -/
def validate_file_path (base user : List PathComponent) :
    Option (List PathComponent) :=
  if user = [] then some base
  else
    let resolved := (user.foldl validateStep ([], 0)).1
    let full_path := pathJoin base (resolved.map PathComponent.normal)
    if base.isPrefixOf full_path then some full_path else none

/-- The `MediaInfo` that `upload_image` places into the slot: the media
type is detected from the parsed form filename, the duration is the
video sentinel or the parsed form duration, and for a captioned video
the filename is replaced by the (external) ffmpeg processing result and
the caption is cleared.  `process_video` stands for the external
`process_video_with_caption` collaborator and `now` for the
`SystemTime::now()` read. -/
def upload_image_media_info (fields : List FormField)
    (process_video : String → String → String) (now : Nat) : MediaInfo :=
  let fd := parse_form_data fields
  let media_type := detect_media_type fd.filename
  let final_duration := upload_final_duration media_type fd.duration_secs
  let filename :=
    if media_type = MediaType.Video ∧ fd.caption ≠ "" then
      process_video fd.filename fd.caption
    else fd.filename
  let final_caption :=
    if media_type = MediaType.Video ∧ fd.caption ≠ "" then ""
    else fd.caption
  create_media_info filename media_type final_duration final_caption now

/-! ## Concrete states used by the counterexamples and witnesses -/

/-- A state with both slots empty and one ledger entry left over from a
superseded upload. -/
def c2State : MediaViewState :=
  { last_media := none, last_sound := none,
    viewed_by := [("a.jpg", ["10.0.0.1"])] }

/-- The media info of the concrete video upload `v1.mp4`. -/
def v1MediaInfo : MediaInfo :=
  { filename := "v1.mp4", media_type := MediaType.Video, upload_time := 0,
    marked_for_deletion := false, duration_secs := 999999, caption := "" }

/-- A state with no media and one sound item uploaded at time 0, not
quarantined. -/
def c5State : MediaViewState :=
  { last_media := none,
    last_sound := some
      { filename := "s.mp3", upload_time := 0, marked_for_deletion := false },
    viewed_by := [] }

/-- A state holding one unquarantined media item uploaded at time 0. -/
def freshMediaState : MediaViewState :=
  { last_media := some
      { filename := "a.jpg", media_type := MediaType.Image,
        upload_time := 0, marked_for_deletion := false,
        duration_secs := 5, caption := "" },
    last_sound := none, viewed_by := [] }

/-! ## Ledger lemmas -/

/-- After `ledgerInsert`, the entry for the filename exists and holds the
inserted address. -/
theorem ledgerInsert_lookup (l : Ledger) (f : String) (ip : IpAddr) :
    ∃ vs, ledgerLookup (ledgerInsert l f ip).1 f = some vs ∧ ip ∈ vs := by
  induction l with
  | nil => exact ⟨[ip], by simp [ledgerInsert, ledgerLookup], by simp⟩
  | cons e rest ih =>
    obtain ⟨g, vs⟩ := e
    by_cases hg : g = f
    · subst hg
      by_cases hip : ip ∈ vs
      · exact ⟨vs, by simp [ledgerInsert, hip, ledgerLookup], hip⟩
      · exact ⟨ip :: vs, by simp [ledgerInsert, hip, ledgerLookup],
          by simp⟩
    · obtain ⟨vs', h1, h2⟩ := ih
      exact ⟨vs', by simpa [ledgerInsert, hg, ledgerLookup], h2⟩

/-- `ledgerInsert` of an already-present pair leaves the ledger unchanged
and reports `false`. -/
theorem ledgerInsert_of_mem (l : Ledger) (f : String) (ip : IpAddr)
    (vs : List IpAddr) (hvs : ledgerLookup l f = some vs) (hip : ip ∈ vs) :
    ledgerInsert l f ip = (l, false) := by
  induction l with
  | nil => simp [ledgerLookup] at hvs
  | cons e rest ih =>
    obtain ⟨g, ws⟩ := e
    by_cases hg : g = f
    · subst hg
      rw [ledgerLookup] at hvs
      simp at hvs
      subst hvs
      simp [ledgerInsert, hip]
    · rw [ledgerLookup] at hvs
      rw [if_neg hg] at hvs
      simp [ledgerInsert, hg, ih hvs]

/-- `ledgerInsert` of an absent pair reports a fresh insertion. -/
theorem ledgerInsert_snd_of_not_viewed (l : Ledger) (f : String)
    (ip : IpAddr)
    (h : ∀ vs, ledgerLookup l f = some vs → ip ∉ vs) :
    (ledgerInsert l f ip).2 = true := by
  induction l with
  | nil => simp [ledgerInsert]
  | cons e rest ih =>
    obtain ⟨g, vs⟩ := e
    by_cases hg : g = f
    · subst hg
      have hip : ip ∉ vs := h vs (by simp [ledgerLookup])
      simp [ledgerInsert, hip]
    · have h' : ∀ vs', ledgerLookup rest f = some vs' → ip ∉ vs' := by
        intro vs' hvs'
        exact h vs' (by simpa [ledgerLookup, hg])
      simp [ledgerInsert, hg, ih h']

/-! ## Claim C1 -/

/-- C1, counterexample: with an empty media slot, `mark_viewed` still
inserts a ledger entry for the filename — the claimed re-validation
against the current slot occupant does not happen, so the ledger is not
left unchanged when the slot is empty. -/
theorem mark_viewed_no_revalidation_counterexample :
    MediaViewState.new.last_media = none ∧
    (MediaViewState.new.mark_viewed "a.jpg" "10.0.0.1").1.viewed_by ≠
      MediaViewState.new.viewed_by := by
  decide

/-- C1, amended: `mark_viewed` performs no re-validation against the slot:
for every state, filename and viewer address, the call records the view
in the ledger entry for the filename (creating the entry when absent),
even when the media slot is empty or holds a different filename, and it
leaves both slots unchanged. -/
theorem mark_viewed_unconditional_insert (s : MediaViewState) (f : String)
    (ip : IpAddr) :
    (s.mark_viewed f ip).1.last_media = s.last_media ∧
    (s.mark_viewed f ip).1.last_sound = s.last_sound ∧
    (s.mark_viewed f ip).1.has_been_viewed f ip = true := by
  refine ⟨rfl, rfl, ?_⟩
  obtain ⟨vs, h1, h2⟩ := ledgerInsert_lookup s.viewed_by f ip
  simp [MediaViewState.mark_viewed, MediaViewState.has_been_viewed, h1, h2]

/-! ## Claim C2 -/

/-- C2, counterexample: `remove_file_from_state` on a filename tracked by
neither slot is not a no-op: the `viewed_by.remove` call runs
unconditionally, so the leftover ledger entry for that filename is
erased. -/
theorem remove_file_untracked_counterexample :
    c2State.last_media = none ∧ c2State.last_sound = none ∧
    (c2State.remove_file_from_state "a.jpg").viewed_by ≠
      c2State.viewed_by := by
  decide

/-- C2, amended: when the filename is tracked by neither slot,
`remove_file_from_state` leaves both slots unchanged and leaves every
ledger entry keyed by a different filename unchanged, but it still
removes the ledger entry keyed by the filename itself (the
`viewed_by.remove` call is unconditional). -/
theorem remove_file_untracked (s : MediaViewState) (f : String)
    (hm : ∀ m, s.last_media = some m → m.filename ≠ f)
    (hs : ∀ snd, s.last_sound = some snd → snd.filename ≠ f) :
    (s.remove_file_from_state f).last_media = s.last_media ∧
    (s.remove_file_from_state f).last_sound = s.last_sound ∧
    (s.remove_file_from_state f).viewed_by =
      s.viewed_by.filter (fun e => e.1 ≠ f) := by
  refine ⟨?_, ?_, rfl⟩
  · cases h : s.last_media with
    | none => simp [MediaViewState.remove_file_from_state, h]
    | some m =>
      simp [MediaViewState.remove_file_from_state, h, hm m h]
  · cases h : s.last_sound with
    | none => simp [MediaViewState.remove_file_from_state, h]
    | some snd =>
      simp [MediaViewState.remove_file_from_state, h, hs snd h]

/-- C2 amended, witness: a state whose media slot holds `b.jpg`, whose
sound slot is empty, and whose ledger has entries for `a.jpg` and
`b.jpg`; removing `a.jpg` keeps both slots and the `b.jpg` ledger entry,
erasing only the `a.jpg` entry. -/
theorem remove_file_untracked_witness :
    (({ last_media := some
          { filename := "b.jpg", media_type := MediaType.Image,
            upload_time := 0, marked_for_deletion := false,
            duration_secs := 5, caption := "" },
        last_sound := none,
        viewed_by := [("a.jpg", ["10.0.0.1"]), ("b.jpg", ["10.0.0.2"])] } :
          MediaViewState).remove_file_from_state "a.jpg").last_media =
      some
        { filename := "b.jpg", media_type := MediaType.Image,
          upload_time := 0, marked_for_deletion := false,
          duration_secs := 5, caption := "" } ∧
    (({ last_media := some
          { filename := "b.jpg", media_type := MediaType.Image,
            upload_time := 0, marked_for_deletion := false,
            duration_secs := 5, caption := "" },
        last_sound := none,
        viewed_by := [("a.jpg", ["10.0.0.1"]), ("b.jpg", ["10.0.0.2"])] } :
          MediaViewState).remove_file_from_state "a.jpg").viewed_by =
      [("b.jpg", ["10.0.0.2"])] := by
  have h := remove_file_untracked
    { last_media := some
        { filename := "b.jpg", media_type := MediaType.Image,
          upload_time := 0, marked_for_deletion := false,
          duration_secs := 5, caption := "" },
      last_sound := none,
      viewed_by := [("a.jpg", ["10.0.0.1"]), ("b.jpg", ["10.0.0.2"])] }
    "a.jpg" (by intro m hm; cases hm; decide)
    (by intro snd hsnd; cases hsnd)
  refine ⟨?_, ?_⟩
  · exact h.1
  · rw [h.2.2]
    decide

/-! ## Claim C3 -/

/-- C3, counterexample: uploading the video `v1.mp4` publishes only the
dedicated video event; the general new-media notification is not among
the published events, because `update_state_and_broadcast` emits it only
for non-video media. -/
theorem video_upload_no_general_event_counterexample :
    (upload_image_broadcasts MediaViewState.new v1MediaInfo).2 =
      [broadcast_video_event_msg "v1.mp4"] ∧
    broadcast_new_media_msg ∉
      (upload_image_broadcasts MediaViewState.new v1MediaInfo).2 := by
  decide

/-- C3, amended: for every upload whose media type is Video, the publish
side emits exactly the dedicated video event and suppresses the general
new-media notification; the general notification is emitted exactly for
non-video uploads. -/
theorem video_upload_broadcasts (s : MediaViewState) (mi : MediaInfo) :
    (mi.media_type = MediaType.Video →
      (upload_image_broadcasts s mi).2 =
        [broadcast_video_event_msg mi.filename] ∧
      broadcast_new_media_msg ∉ (upload_image_broadcasts s mi).2) ∧
    (mi.media_type ≠ MediaType.Video →
      (upload_image_broadcasts s mi).2 = [broadcast_new_media_msg]) := by
  constructor
  · intro hv
    constructor
    · simp [upload_image_broadcasts, update_state_and_broadcast, hv]
    · simp [upload_image_broadcasts, update_state_and_broadcast, hv,
        broadcast_new_media_msg, broadcast_video_event_msg]
  · intro hnv
    simp [upload_image_broadcasts, update_state_and_broadcast, hnv]

/-- C3 amended, witness: the video upload `v1.mp4` publishes exactly the
video event, and an image upload `cat.jpg` publishes exactly the general
new-media notification. -/
theorem video_upload_broadcasts_witness :
    ((upload_image_broadcasts MediaViewState.new v1MediaInfo).2 =
        [broadcast_video_event_msg "v1.mp4"] ∧
      broadcast_new_media_msg ∉
        (upload_image_broadcasts MediaViewState.new v1MediaInfo).2) ∧
    (upload_image_broadcasts MediaViewState.new
        { filename := "cat.jpg", media_type := MediaType.Image,
          upload_time := 0, marked_for_deletion := false,
          duration_secs := 5, caption := "" }).2 =
      [broadcast_new_media_msg] :=
  ⟨(video_upload_broadcasts MediaViewState.new v1MediaInfo).1 rfl,
    (video_upload_broadcasts MediaViewState.new
      { filename := "cat.jpg", media_type := MediaType.Image,
        upload_time := 0, marked_for_deletion := false,
        duration_secs := 5, caption := "" }).2 (by decide)⟩

/-! ## Claim C4 -/

/-- C4, counterexample: the general new-media broadcast carries the event
tag `browser_backend`, which is not in the claimed four-value vocabulary
`media` / `video` / `song` / `raw_url`. -/
theorem event_vocabulary_counterexample :
    broadcast_new_media_msg.event ∉
      (["media", "video", "song", "raw_url"] : List String) := by
  decide

/-- C4, amended: every message the broadcast functions construct is a
record pairing an event tag with a url string, and the tag lies in the
four-value vocabulary `browser_backend` / `song` / `browser_raw` /
`video`. -/
theorem event_vocabulary (uri url filename : String) :
    broadcast_new_media_msg.event ∈
      (["browser_backend", "song", "browser_raw", "video"] : List String) ∧
    (broadcast_new_song_msg uri).event ∈
      (["browser_backend", "song", "browser_raw", "video"] : List String) ∧
    (broadcast_new_browser_raw_msg url).event ∈
      (["browser_backend", "song", "browser_raw", "video"] : List String) ∧
    (broadcast_video_event_msg filename).event ∈
      (["browser_backend", "song", "browser_raw", "video"] : List String) := by
  refine ⟨?_, ?_, ?_, ?_⟩ <;>
    simp [broadcast_new_media_msg, broadcast_new_song_msg,
      broadcast_new_browser_raw_msg, broadcast_video_event_msg]

/-! ## Claim C5 -/

/-- C5, counterexample: a sound item of age 20 with threshold 10, not
quarantined, is not listed by the stale-candidate scan — the scan never
looks at the sound slot. -/
theorem sound_eviction_counterexample :
    c5State.last_sound = some
      { filename := "s.mp3", upload_time := 0,
        marked_for_deletion := false } ∧
    "s.mp3" ∉ c5State.get_files_to_delete 20 10 := by
  decide

/-- C5, amended: the sound slot does not share the media slot's eviction
listing: for every state, the output of the stale-candidate scan is
unchanged by arbitrary replacement of the sound slot contents, so a
stale, non-quarantined sound item is never listed on its own account. -/
theorem get_files_to_delete_ignores_sound (s : MediaViewState)
    (snd : Option SoundInfo) (now threshold : Nat) :
    ({ s with last_sound := snd } : MediaViewState).get_files_to_delete
        now threshold =
      s.get_files_to_delete now threshold := rfl

/-! ## Claim C6 -/

/-- C6: an item flagged for deletion is never served: whenever the current
media item has `marked_for_deletion` set, `get_last_media_for_ip` returns
nothing for every viewer address, while `get_last_media` still reports
the item as the slot occupant. -/
theorem marked_for_deletion_unservable (s : MediaViewState) (ip : IpAddr)
    (m : MediaInfo) (hm : s.last_media = some m)
    (hd : m.marked_for_deletion = true) :
    s.get_last_media_for_ip ip = none ∧ s.get_last_media = some m := by
  constructor
  · simp [MediaViewState.get_last_media_for_ip, hm, hd]
  · simpa [MediaViewState.get_last_media]

/-- C6, witness: a concrete state whose media item `a.jpg` is quarantined;
no viewer is served, and the slot still holds the item. -/
theorem marked_for_deletion_unservable_witness :
    ({ last_media := some
          { filename := "a.jpg", media_type := MediaType.Image,
            upload_time := 0, marked_for_deletion := true,
            duration_secs := 5, caption := "" },
        last_sound := none, viewed_by := [] } :
          MediaViewState).get_last_media_for_ip "10.0.0.1" = none ∧
    ({ last_media := some
          { filename := "a.jpg", media_type := MediaType.Image,
            upload_time := 0, marked_for_deletion := true,
            duration_secs := 5, caption := "" },
        last_sound := none, viewed_by := [] } :
          MediaViewState).get_last_media = some
      { filename := "a.jpg", media_type := MediaType.Image,
        upload_time := 0, marked_for_deletion := true,
        duration_secs := 5, caption := "" } :=
  marked_for_deletion_unservable _ "10.0.0.1" _ rfl rfl

/-! ## Claim C7 -/

/-- C7: the stale-candidate scan lists the current media item's filename
if and only if its age (the successful `duration_since` reading) strictly
exceeds the threshold and its quarantine flag is unset. -/
theorem get_files_to_delete_iff (s : MediaViewState) (now threshold : Nat)
    (m : MediaInfo) (hm : s.last_media = some m) :
    m.filename ∈ s.get_files_to_delete now threshold ↔
      (∃ e, duration_since now m.upload_time = some e ∧ e > threshold) ∧
        m.marked_for_deletion = false := by
  by_cases h : m.upload_time ≤ now
  · simp only [MediaViewState.get_files_to_delete, hm, duration_since,
      if_pos h]
    constructor
    · intro hmem
      by_cases hc : threshold < now - m.upload_time ∧
          m.marked_for_deletion = false
      · exact ⟨⟨now - m.upload_time, rfl, hc.1⟩, hc.2⟩
      · exfalso
        rcases Decidable.not_and_iff_or_not.mp hc with h1 | h2
        · simp [Nat.not_lt.mp (fun hlt => h1 hlt)] at hmem
          · exact h1 (by simpa using hmem.1)
        · have : m.marked_for_deletion = true := by
            cases hb : m.marked_for_deletion
            · exact absurd hb h2
            · rfl
          simp [this] at hmem
    · rintro ⟨⟨e, he, hgt⟩, hmark⟩
      obtain rfl : now - m.upload_time = e := by
        simpa using he
      simp [hgt, hmark]
  · simp only [MediaViewState.get_files_to_delete, hm, duration_since,
      if_neg h]
    simp

/-- C7, witness: an item uploaded at time 0 is listed at time 11 with
threshold 10 and not listed at time 9 with threshold 10. -/
theorem get_files_to_delete_iff_witness :
    "a.jpg" ∈ freshMediaState.get_files_to_delete 11 10 ∧
    "a.jpg" ∉ freshMediaState.get_files_to_delete 9 10 := by
  constructor
  · exact (get_files_to_delete_iff freshMediaState 11 10 _ rfl).mpr
      ⟨⟨11, by decide, by decide⟩, rfl⟩
  · intro hmem
    obtain ⟨⟨e, he, hgt⟩, -⟩ :=
      (get_files_to_delete_iff freshMediaState 9 10 _ rfl).mp hmem
    simp [duration_since] at he
    omega

/-! ## Claim C8 -/

/-- C8: `mark_viewed` is idempotent with a first-insertion indicator: when
the pair is not yet in the ledger, the first call returns true, and a
second call with the same pair returns false and leaves the whole state —
the ledger included — unchanged. -/
theorem mark_viewed_idempotent (s : MediaViewState) (f : String)
    (ip : IpAddr) (h : s.has_been_viewed f ip = false) :
    (s.mark_viewed f ip).2 = true ∧
    ((s.mark_viewed f ip).1.mark_viewed f ip).2 = false ∧
    ((s.mark_viewed f ip).1.mark_viewed f ip).1 = (s.mark_viewed f ip).1 := by
  have hnot : ∀ vs, ledgerLookup s.viewed_by f = some vs → ip ∉ vs := by
    intro vs hvs hmem
    rw [MediaViewState.has_been_viewed, hvs] at h
    simp [hmem] at h
  obtain ⟨vs, h1, h2⟩ := ledgerInsert_lookup s.viewed_by f ip
  have heq := ledgerInsert_of_mem (ledgerInsert s.viewed_by f ip).1 f ip
    vs h1 h2
  refine ⟨?_, ?_, ?_⟩
  · have := ledgerInsert_snd_of_not_viewed s.viewed_by f ip hnot
    simpa [MediaViewState.mark_viewed]
  · simp [MediaViewState.mark_viewed, heq]
  · simp [MediaViewState.mark_viewed, heq]

/-- C8, witness: starting from the empty state, the first
`mark_viewed("a.jpg", 10.0.0.1)` returns true, and the second returns
false without changing the state. -/
theorem mark_viewed_idempotent_witness :
    MediaViewState.new.has_been_viewed "a.jpg" "10.0.0.1" = false ∧
    ((MediaViewState.new.mark_viewed "a.jpg" "10.0.0.1").2 = true ∧
      ((MediaViewState.new.mark_viewed "a.jpg" "10.0.0.1").1.mark_viewed
          "a.jpg" "10.0.0.1").2 = false ∧
      ((MediaViewState.new.mark_viewed "a.jpg" "10.0.0.1").1.mark_viewed
          "a.jpg" "10.0.0.1").1 =
        (MediaViewState.new.mark_viewed "a.jpg" "10.0.0.1").1) :=
  ⟨by decide,
    mark_viewed_idempotent MediaViewState.new "a.jpg" "10.0.0.1" (by decide)⟩

/-! ## Claim C9 -/

/-- `clamp` stays within its bounds. -/
theorem rustClamp_bounds (v lo hi : Nat) (h : lo ≤ hi) :
    lo ≤ rustClamp v lo hi ∧ rustClamp v lo hi ≤ hi := by
  unfold rustClamp
  split_ifs <;> omega

/-- The duration accumulated by `parse_form_data`'s field loop stays in
`[1, 60]` whenever it starts there. -/
theorem parse_form_duration_bounds (fields : List FormField)
    (acc : FormDataParsed) (h1 : 1 ≤ acc.duration_secs)
    (h2 : acc.duration_secs ≤ 60) :
    1 ≤ (fields.foldl parseFormStep acc).duration_secs ∧
      (fields.foldl parseFormStep acc).duration_secs ≤ 60 := by
  induction fields generalizing acc with
  | nil => exact ⟨h1, h2⟩
  | cons fld rest ih =>
    cases fld with
    | image fn data => exact ih _ h1 h2
    | duration raw =>
      cases hp : rustParseU64 raw with
      | none =>
        rw [List.foldl_cons]
        rw [show parseFormStep acc (FormField.duration raw) = acc from by
          simp [parseFormStep, hp]]
        exact ih _ h1 h2
      | some v =>
        have hb := rustClamp_bounds v 1 60 (by omega)
        rw [List.foldl_cons]
        rw [show parseFormStep acc (FormField.duration raw) =
            { acc with duration_secs := rustClamp v 1 60 } from by
          simp [parseFormStep, hp]]
        exact ih _ hb.1 hb.2
    | caption raw => exact ih _ h1 h2
    | other => exact ih _ h1 h2

/-- If no duration field parses, the field loop never changes the
duration. -/
theorem parse_form_duration_default (fields : List FormField)
    (acc : FormDataParsed)
    (h : ∀ raw, FormField.duration raw ∈ fields → rustParseU64 raw = none) :
    (fields.foldl parseFormStep acc).duration_secs = acc.duration_secs := by
  induction fields generalizing acc with
  | nil => rfl
  | cons fld rest ih =>
    have hrest : ∀ raw, FormField.duration raw ∈ rest →
        rustParseU64 raw = none :=
      fun raw hr => h raw (List.mem_cons_of_mem _ hr)
    cases fld with
    | image fn data => exact ih _ hrest
    | duration raw =>
      have hp := h raw (List.mem_cons_self _ _)
      rw [List.foldl_cons]
      rw [show parseFormStep acc (FormField.duration raw) = acc from by
        simp [parseFormStep, hp]]
      exact ih _ hrest
    | caption raw => exact ih _ hrest
    | other => exact ih _ hrest

/-- C9: the stored display duration is bounded — an image upload places a
`MediaInfo` whose duration lies in `[1, 60]` (defaulting to 5 when every
duration field is absent or unparsable), and a video upload stores the
sentinel 999999. -/
theorem upload_duration_bounded (fields : List FormField)
    (process_video : String → String → String) (now : Nat) :
    ((upload_image_media_info fields process_video now).media_type =
        MediaType.Image →
      (1 ≤ (upload_image_media_info fields process_video now).duration_secs ∧
        (upload_image_media_info fields process_video now).duration_secs ≤
          60) ∧
      ((∀ raw, FormField.duration raw ∈ fields → rustParseU64 raw = none) →
        (upload_image_media_info fields process_video now).duration_secs =
          5)) ∧
    ((upload_image_media_info fields process_video now).media_type =
        MediaType.Video →
      (upload_image_media_info fields process_video now).duration_secs =
        999999) := by
  have hmt : (upload_image_media_info fields process_video now).media_type =
      detect_media_type (parse_form_data fields).filename := rfl
  have hdur :
      (upload_image_media_info fields process_video now).duration_secs =
        upload_final_duration
          (detect_media_type (parse_form_data fields).filename)
          (parse_form_data fields).duration_secs := rfl
  have hbounds := parse_form_duration_bounds fields
    { filename := "", file_data := [], duration_secs := 5, caption := "" }
    (by decide) (by decide)
  cases hd : detect_media_type (parse_form_data fields).filename with
  | Image =>
    rw [hd] at hmt
    rw [hd] at hdur
    refine ⟨fun _ => ⟨?_, ?_⟩, fun hv => absurd (hmt.symm.trans hv) (by decide)⟩
    · rw [hdur]
      exact hbounds
    · intro habsent
      have hdef := parse_form_duration_default fields
        { filename := "", file_data := [], duration_secs := 5, caption := "" }
        habsent
      rw [hdur]
      exact hdef
  | Video =>
    rw [hd] at hmt
    rw [hd] at hdur
    exact ⟨fun hi => absurd (hmt.symm.trans hi) (by decide), fun _ => hdur⟩

/-- C9, witness: an upload of `cat.jpg` whose duration field does not
parse stores the default duration 5, and an upload of `v1.mp4` stores
the sentinel 999999. -/
theorem upload_duration_bounded_witness :
    ((upload_image_media_info [FormField.image "cat.jpg" [],
        FormField.duration "abc"] (fun f _ => f) 0).duration_secs = 5 ∧
      1 ≤ (upload_image_media_info [FormField.image "cat.jpg" [],
        FormField.duration "abc"] (fun f _ => f) 0).duration_secs) ∧
    (upload_image_media_info [FormField.image "v1.mp4" []]
        (fun f _ => f) 0).duration_secs = 999999 := by
  have h9 := upload_duration_bounded
    [FormField.image "cat.jpg" [], FormField.duration "abc"]
    (fun f _ => f) 0
  have h9v := upload_duration_bounded [FormField.image "v1.mp4" []]
    (fun f _ => f) 0
  have himg := h9.1 (by decide)
  refine ⟨⟨himg.2 ?_, himg.1.1⟩, h9v.2 (by decide)⟩
  intro raw hraw
  simp at hraw
  subst hraw
  decide

/-! ## Claim C10 -/

/-- C10: path containment — whenever `validate_file_path` returns a path,
that path starts with the base directory; parent-directory components in
the user path can never make the result escape the base. -/
theorem validate_file_path_contained (base user p : List PathComponent)
    (h : validate_file_path base user = some p) :
    base <+: p := by
  unfold validate_file_path at h
  by_cases hu : user = []
  · rw [if_pos hu] at h
    cases h
    exact List.prefix_refl base
  · rw [if_neg hu] at h
    by_cases hpre : base.isPrefixOf
        (pathJoin base
          (((user.foldl validateStep ([], 0)).1).map PathComponent.normal))
    · rw [if_pos hpre] at h
      cases h
      exact List.isPrefixOf_iff_prefix.mp hpre
    · rw [if_neg hpre] at h
      cases h

/-- C10, witness: the traversal attempt `../etc/passwd` against the base
`uploads` resolves inside the base directory. -/
theorem validate_file_path_contained_witness :
    validate_file_path [PathComponent.normal "uploads"]
        [PathComponent.parentDir, PathComponent.normal "etc",
          PathComponent.normal "passwd"] =
      some [PathComponent.normal "uploads", PathComponent.normal "etc",
        PathComponent.normal "passwd"] ∧
    [PathComponent.normal "uploads"] <+:
      [PathComponent.normal "uploads", PathComponent.normal "etc",
        PathComponent.normal "passwd"] :=
  ⟨by decide,
    validate_file_path_contained [PathComponent.normal "uploads"]
      [PathComponent.parentDir, PathComponent.normal "etc",
        PathComponent.normal "passwd"]
      [PathComponent.normal "uploads", PathComponent.normal "etc",
        PathComponent.normal "passwd"] (by decide)⟩

end HomiesBackend
